import Mathlib

/-
Verification development for the manifest CLI (manifest list push / fetch).

Shallow embedding of:
  - cli/command/manifest/push.go : putManifestList, buildManifestObj,
    buildBlobMountRequestLists, mountBlobs, pushReferences, statusSuccess,
    selectPushEndpoint
  - cli/command/manifest/fetch.go : getImageData (the v2, abstracted-client
    version: the endpoint loop with TLS-downgrade protection and the
    last-error retention logic)

Modelling conventions:
  - The registry network is an oracle (`Registry`): each request kind maps to
    an optional HTTP response; `none` models a transport-level error from
    `httpClient.Do`.
  - Reference parsing/normalization (the docker reference library, an external
    collaborator) is modelled by records carrying their already-parsed
    registry domain and repository path.
  - go-digest `Parse`/`Validate` is modelled for the sha256 algorithm:
    "sha256:" followed by 64 lowercase hex digits.
  - URL builders and request constructors (collaborator code whose error
    branches are dead for well-formed inputs) are modelled as total functions.
  - Side effects on the network and the staging store are recorded as an
    ordered trace of `NetEvent`s, so temporal claims are statements about
    the trace.
-/

/-- Go source: `statusSuccess(status int) bool` returns
`status >= 200 && status <= 399`. -/
def statusSuccess (status : Int) : Bool :=
  decide (200 ≤ status) && decide (status ≤ 399)

/-- Lowercase hexadecimal digit test, used by the digest format check. -/
def isHexLower (c : Char) : Bool :=
  (('0' ≤ c) && (c ≤ '9')) || (('a' ≤ c) && (c ≤ 'f'))

/-- Model of go-digest format validation (`digest.Digest.Validate`) for the
sha256 algorithm: the string is "sha256:" followed by 64 lowercase hex
digits (a second colon makes the hex check fail, as it does the Go regexp). -/
def digestValid (s : String) : Bool :=
  match s.data with
  | 's' :: 'h' :: 'a' :: '2' :: '5' :: '6' :: ':' :: hex =>
    hex.length == 64 && hex.all isHexLower
  | _ => false

/-- Model of `digest.Parse`: validate the format and return the digest (the
Go function returns the input string, as a `Digest`, when it is valid). -/
def digestParse (s : String) : Except String String :=
  if digestValid s then Except.ok s else Except.error ("invalid checksum digest format")

/-- Go source: `blobMount` struct — one cross-repository blob mount request. -/
structure BlobMount where
  fromRepo : String
  digest : String
deriving DecidableEq

/-- Go source: `manifestPush` struct — one referenced-manifest push request. -/
structure ManifestPushReq where
  name : String
  digest : String
  jsonBytes : List Nat
  mediaType : String
deriving DecidableEq

/-- Platform part of `manifestlist.PlatformSpec`. -/
structure PlatformSpec where
  architecture : String
  os : String
  osVersion : String
  osFeatures : List String
  variant : String
  features : List String
deriving DecidableEq

/-- Descriptor part of `manifestlist.ManifestDescriptor`. -/
structure ManifestDescriptor where
  digest : String
  size : Int
  mediaType : String
  platform : PlatformSpec
deriving DecidableEq

/-- Model of `registry.RepositoryInfo` restricted to what the push path uses:
the reference domain (`reference.Domain`) and path (`reference.Path`). -/
structure RepositoryInfo where
  domain : String
  path : String
deriving DecidableEq

/-- Model of `ImgManifestInspect` restricted to the fields the push path
reads. `refDomain`/`refPath` are the parsed domain and path of `RefName`
(reference parsing is collaborator code, modelled as already done). -/
structure ImgManifestInspect where
  refDomain : String
  refPath : String
  size : Int
  mediaType : String
  digest : String
  architecture : String
  os : String
  osVersion : String
  osFeatures : List String
  variant : String
  features : List String
  references : List String
  canonicalJSON : List Nat
deriving DecidableEq

/-- Go source: `buildManifestObj(targetRepo, mfInspect)`. In order: parse the
record reference (modelled pre-parsed), compare the record registry hostname
with the target registry hostname and fail on mismatch, build the
descriptor, then validate its digest format. -/
def buildManifestObj (targetRepo : RepositoryInfo) (mfInspect : ImgManifestInspect) :
    Except String (ManifestDescriptor × RepositoryInfo) :=
  let repoInfo : RepositoryInfo := ⟨mfInspect.refDomain, mfInspect.refPath⟩
  if mfInspect.refDomain ≠ targetRepo.domain then
    Except.error ("cannot use source images from a different registry than the target image: "
      ++ mfInspect.refDomain ++ " != " ++ targetRepo.domain)
  else
    let manifest : ManifestDescriptor :=
      { digest := mfInspect.digest
        size := mfInspect.size
        mediaType := mfInspect.mediaType
        platform :=
          { architecture := mfInspect.architecture
            os := mfInspect.os
            osVersion := mfInspect.osVersion
            osFeatures := mfInspect.osFeatures
            variant := mfInspect.variant
            features := mfInspect.features } }
    if digestValid mfInspect.digest then Except.ok (manifest, repoInfo)
    else Except.error ("Digest parse of image failed with error: invalid checksum digest format")

/-- Go source: `buildBlobMountRequestLists(mfstInspect, targetRepoName, mfRepoName)` —
one blob mount request per referenced blob digest, plus one referenced-manifest
push request for the record itself. -/
def buildBlobMountRequestLists (mfstInspect : ImgManifestInspect)
    (targetRepoName mfRepoName : String) : List BlobMount × List ManifestPushReq :=
  (mfstInspect.references.map (fun layer => ⟨mfRepoName, layer⟩),
   [⟨mfRepoName, mfstInspect.digest, mfstInspect.canonicalJSON, mfstInspect.mediaType⟩])

/-- Accumulated output of the record loop in `putManifestList` (lines 159-186):
the manifest-list descriptors and the cross-repository requests. -/
structure BuildOutput where
  manifests : List ManifestDescriptor
  blobMountRequests : List BlobMount
  manifestRequests : List ManifestPushReq
deriving DecidableEq

/-- Go source: the per-record loop of `putManifestList`. For each record in
order: reject when `Architecture` or `OS` is empty (error
"malformed manifest object. cannot push to registry"); build the descriptor
via `buildManifestObj`; when the record repository path differs from the
target repository name, accumulate its blob mount and manifest push
requests. Any error aborts the whole build (the local list is discarded). -/
def buildPushPayload (targetRepo : RepositoryInfo) (targetRepoName : String) :
    List ImgManifestInspect → Except String BuildOutput
  | [] => Except.ok ⟨[], [], []⟩
  | mfstInspect :: rest =>
    if mfstInspect.architecture == "" || mfstInspect.os == "" then
      Except.error ("malformed manifest object. cannot push to registry")
    else
      match buildManifestObj targetRepo mfstInspect with
      | Except.error e => Except.error e
      | Except.ok (manifest, repoInfo) =>
        match buildPushPayload targetRepo targetRepoName rest with
        | Except.error e => Except.error e
        | Except.ok out =>
          let manifestRepoName := repoInfo.path
          if targetRepoName ≠ manifestRepoName then
            let bmr := (buildBlobMountRequestLists mfstInspect targetRepoName manifestRepoName).1
            let mr := (buildBlobMountRequestLists mfstInspect targetRepoName manifestRepoName).2
            Except.ok ⟨manifest :: out.manifests, bmr ++ out.blobMountRequests,
              mr ++ out.manifestRequests⟩
          else
            Except.ok ⟨manifest :: out.manifests, out.blobMountRequests, out.manifestRequests⟩

/-- An HTTP response as observed by the push path: its status code, the
Docker-Content-Digest header, and the Location header. -/
structure HttpResponse where
  statusCode : Int
  dockerContentDigest : String
  location : String
deriving DecidableEq

/-- The registry network oracle. Each request kind maps to its response;
`none` models a transport-level error returned by `httpClient.Do`. -/
structure Registry where
  mountBlobResp : BlobMount → Option HttpResponse
  putManifestResp : ManifestPushReq → Option HttpResponse
  putListResp : Option HttpResponse

/-- One observable side effect of a push invocation, in occurrence order:
a blob-mount POST, a referenced-manifest PUT, the manifest-list PUT, or the
purge of the staged files (`os.RemoveAll` under `opts.purge`). -/
inductive NetEvent where
  | mountBlob (b : BlobMount)
  | putManifest (m : ManifestPushReq)
  | putList
  | purgeFiles
deriving DecidableEq

/-- Model of `v2.URLBuilder.BuildBlobUploadURL` for a mount request: the v2
route with the from/mount query parameters (plain concatenation; the URL
builder is collaborator code). -/
def buildBlobUploadURL (ref : String) (blob : BlobMount) : String :=
  "/v2/" ++ ref ++ "/blobs/uploads/?from=" ++ blob.fromRepo ++ "&mount=" ++ blob.digest

/-- Go source: `mountBlobs(httpClient, urlBuilder, ref, blobsRequested)`.
For each requested blob in order: POST the mount request (one trace event per
request actually issued); a transport error is fatal; any status other than
201 Created is fatal. No field of the source platform is consulted. -/
def mountBlobs (reg : Registry) (ref : String) :
    List BlobMount → List NetEvent × Except String Unit
  | [] => ([], Except.ok ())
  | blob :: rest =>
    match reg.mountBlobResp blob with
    | none => ([NetEvent.mountBlob blob], Except.error ("v2 registry POST of blob mount failed"))
    | some resp =>
      if resp.statusCode ≠ 201 then
        ([NetEvent.mountBlob blob],
          Except.error ("blob mount failed to url " ++ buildBlobUploadURL ref blob
            ++ ": HTTP status " ++ toString resp.statusCode))
      else
        let next := mountBlobs reg ref rest
        (NetEvent.mountBlob blob :: next.1, next.2)

/-- Go source: `pushReferences(httpClient, urlBuilder, ref, manifests)`.
For each referenced manifest in order: parse its digest, PUT the manifest by
digest-addressed reference (one trace event per PUT issued), require a
success status, parse the response digest header, and fail when it differs
from the expected digest. (The source prints the parsed request digest in
the mismatch message; this is mirrored.) -/
def pushReferences (reg : Registry) (ref : String) :
    List ManifestPushReq → List NetEvent × Except String Unit
  | [] => ([], Except.ok ())
  | manifest :: rest =>
    match digestParse manifest.digest with
    | Except.error e =>
      ([], Except.error ("error parsing manifest digest (" ++ manifest.digest
        ++ ") for referenced manifest " ++ manifest.name ++ ": " ++ e))
    | Except.ok dgst =>
      match reg.putManifestResp manifest with
      | none => ([NetEvent.putManifest manifest], Except.error ("PUT of manifest reference failed"))
      | some resp =>
        if !(statusSuccess resp.statusCode) then
          ([NetEvent.putManifest manifest],
            Except.error ("referenced manifest push unsuccessful: response "
              ++ toString resp.statusCode))
        else
          match digestParse resp.dockerContentDigest with
          | Except.error _ =>
            ([NetEvent.putManifest manifest],
              Except.error ("couldn\u0027t parse pushed manifest digest response"))
          | Except.ok dgstResult =>
            if dgstResult ≠ manifest.digest then
              ([NetEvent.putManifest manifest],
                Except.error ("pushed referenced manifest received a different digest: expected "
                  ++ manifest.digest ++ ", got " ++ dgst))
            else
              let next := pushReferences reg ref rest
              (NetEvent.putManifest manifest :: next.1, next.2)

/-- Go source: the network part of `putManifestList` (lines 156-261), after
references are constructed and staged records loaded. In order: build the
descriptor list and cross-repository requests (validation); mount all blobs;
push all referenced manifests; PUT the manifest list; on a success status,
parse the returned digest and, when `purge` was requested, delete the staged
files. Any error aborts immediately. The result is the ordered event trace
and either the registry-assigned digest or the error. -/
def putManifestListCore (reg : Registry) (targetRepo : RepositoryInfo)
    (targetRepoName targetRefStr bareRefStr : String) (purge : Bool)
    (records : List ImgManifestInspect) : List NetEvent × Except String String :=
  match buildPushPayload targetRepo targetRepoName records with
  | Except.error e => ([], Except.error e)
  | Except.ok out =>
    match mountBlobs reg targetRefStr out.blobMountRequests with
    | (mountEvs, Except.error e) =>
      (mountEvs, Except.error ("couldn\u0027t mount blobs for cross-repository push: " ++ e))
    | (mountEvs, Except.ok _) =>
      match pushReferences reg bareRefStr out.manifestRequests with
      | (pushEvs, Except.error e) =>
        (mountEvs ++ pushEvs,
          Except.error ("couldn\u0027t push manifests referenced in our manifest list: " ++ e))
      | (pushEvs, Except.ok _) =>
        match reg.putListResp with
        | none =>
          (mountEvs ++ pushEvs ++ [NetEvent.putList],
            Except.error ("v2 registry PUT of manifest list failed"))
        | some resp =>
          if statusSuccess resp.statusCode then
            match digestParse resp.dockerContentDigest with
            | Except.error e => (mountEvs ++ pushEvs ++ [NetEvent.putList], Except.error e)
            | Except.ok dgst =>
              if purge then
                (mountEvs ++ pushEvs ++ [NetEvent.putList, NetEvent.purgeFiles], Except.ok dgst)
              else
                (mountEvs ++ pushEvs ++ [NetEvent.putList], Except.ok dgst)
          else
            (mountEvs ++ pushEvs ++ [NetEvent.putList],
              Except.error ("registry push unsuccessful: response " ++ toString resp.statusCode))

/-- Registry API versions as carried by `registry.APIEndpoint`. -/
inductive APIVersion where
  | v1
  | v2
  | other
deriving DecidableEq

/-- Model of `registry.APIEndpoint` restricted to what the fetch loop reads:
URL scheme, URL host, and API version. -/
structure APIEndpoint where
  scheme : String
  host : String
  version : APIVersion
deriving DecidableEq

/-- Classification of one failed fetch attempt. The source classifies its
error dynamically (`err.(recoverableError)` and `err.(distribution.ErrNoSupport)`,
types owned by the transport collaborator); the two type tests are modelled
as boolean fields. -/
structure FetchFailure where
  recoverable : Bool
  noSupport : Bool
  msg : String
deriving DecidableEq

/-- Outcome of one fetch attempt at one endpoint. -/
inductive FetchOutcome where
  | success
  | failure (e : FetchFailure)
deriving DecidableEq

/-- Go source: `newManifestFetcher` of the v2 (abstracted-client) variant —
v2 succeeds, v1 is no longer supported, anything else is unknown. -/
def newManifestFetcherOk : APIVersion → Except String Unit
  | APIVersion.v2 => Except.ok ()
  | APIVersion.v1 => Except.error ("v1 registries are no longer supported")
  | APIVersion.other => Except.error ("unknown version for registry")

/-- Mutable state of the endpoint loop in `getImageData`: the running last
error, the discard-no-support flag, and the TLS-confirmed host set. -/
structure FetchLoopState where
  lastErr : Option String
  discardNoSupportErrors : Bool
  confirmedTLSRegistries : List String
deriving DecidableEq

/-- Result of the endpoint loop: success at some endpoint, a fatal abort, or
exhaustion of all candidates with the retained (or synthesized) error. -/
inductive FetchResult where
  | found (endpoint : APIEndpoint)
  | fatal (msg : String)
  | exhausted (msg : String)
deriving DecidableEq

/-- State update applied after a recoverable fetch failure (fetch.go lines
530-543): record the host as TLS-confirmed when the attempt was over https,
then apply the no-support tie-break to the running last error. -/
def fetchLoopNextState (st : FetchLoopState) (endpoint : APIEndpoint)
    (e : FetchFailure) : FetchLoopState :=
  let confirmed :=
    if endpoint.scheme = "https" then endpoint.host :: st.confirmedTLSRegistries
    else st.confirmedTLSRegistries
  if !e.noSupport then
    { lastErr := some e.msg, discardNoSupportErrors := true,
      confirmedTLSRegistries := confirmed }
  else if !st.discardNoSupportErrors then
    { st with lastErr := some e.msg, confirmedTLSRegistries := confirmed }
  else
    { st with confirmedTLSRegistries := confirmed }

/-- Go source: the endpoint loop of `getImageData` (v2 variant, lines
506-568): skip v1 endpoints; skip a non-https endpoint whose host is already
TLS-confirmed; construct the fetcher (recording a construction error as the
last error); attempt the fetch. On a recoverable failure, update the state
via `fetchLoopNextState` and continue. A success or a non-recoverable
failure ends the loop. On exhaustion, return the retained last error, or the
synthesized "no endpoints found" error if none was recorded. The first
component is the ordered list of endpoints actually attempted (fetch
issued). -/
def getImageDataLoop (oracle : APIEndpoint → FetchOutcome) (name : String) :
    List APIEndpoint → FetchLoopState → List APIEndpoint × FetchResult
  | [], st => ([], FetchResult.exhausted (st.lastErr.getD ("no endpoints found for " ++ name)))
  | endpoint :: rest, st =>
    if endpoint.version = APIVersion.v1 then
      getImageDataLoop oracle name rest st
    else if endpoint.scheme ≠ "https" ∧ endpoint.host ∈ st.confirmedTLSRegistries then
      getImageDataLoop oracle name rest st
    else
      match newManifestFetcherOk endpoint.version with
      | Except.error e => getImageDataLoop oracle name rest { st with lastErr := some e }
      | Except.ok _ =>
        match oracle endpoint with
        | FetchOutcome.success => ([endpoint], FetchResult.found endpoint)
        | FetchOutcome.failure e =>
          if e.recoverable then
            let next := getImageDataLoop oracle name rest (fetchLoopNextState st endpoint e)
            (endpoint :: next.1, next.2)
          else
            ([endpoint], FetchResult.fatal e.msg)

/-- Go source: `getImageData` network phase, starting the endpoint loop from
the initial state (no last error, discard flag unset, no TLS-confirmed
hosts). -/
def getImageData (oracle : APIEndpoint → FetchOutcome) (name : String)
    (endpoints : List APIEndpoint) : List APIEndpoint × FetchResult :=
  getImageDataLoop oracle name endpoints ⟨none, false, []⟩

/-- The recoverable failures the loop encounters, in encounter order,
mirroring the loop skips (the confirmed-host set argument evolves exactly as
the loop state does). -/
def recoverableTrail (oracle : APIEndpoint → FetchOutcome) :
    List APIEndpoint → List String → List FetchFailure
  | [], _ => []
  | endpoint :: rest, confirmed =>
    if endpoint.version = APIVersion.v1 then
      recoverableTrail oracle rest confirmed
    else if endpoint.scheme ≠ "https" ∧ endpoint.host ∈ confirmed then
      recoverableTrail oracle rest confirmed
    else
      match newManifestFetcherOk endpoint.version with
      | Except.error _ => recoverableTrail oracle rest confirmed
      | Except.ok _ =>
        match oracle endpoint with
        | FetchOutcome.success => []
        | FetchOutcome.failure e =>
          if e.recoverable then
            e :: recoverableTrail oracle rest
              (if endpoint.scheme = "https" then endpoint.host :: confirmed else confirmed)
          else []

/-- Modelled from the spec wording of the error-reporting tie-break (spec
section 4.2 step 4): fold over the recoverable failures; once a
non-no-support failure has been seen, later no-support failures never
replace the retained error; otherwise the most recent failure is retained.
Used as the specification side of the retention claim. -/
def specRetainTieBreak : Bool → Option String → List FetchFailure → Option String
  | _, last, [] => last
  | discard, last, e :: rest =>
    if !e.noSupport then specRetainTieBreak true (some e.msg) rest
    else if !discard then specRetainTieBreak discard (some e.msg) rest
    else specRetainTieBreak discard last rest

/-- Go source: `selectPushEndpoint(repoInfo)`. Inputs model its collaborator
calls: the result of `loadLocalInsecureRegistries`, the result of
`LookupPushEndpoints`, and `repoInfo.Index.Secure`. The function indexes
`endpoints[0]` without an emptiness check — on an empty lookup result the Go
code panics with an index-out-of-range, modelled as `none` (no defined
result); error results exist only for the two collaborator calls. For an
insecure index, the last http-scheme endpoint replaces the default first
endpoint. -/
def selectPushEndpoint (insecureLoad : Except String (List String))
    (lookup : List String → Except String (List APIEndpoint)) (indexSecure : Bool) :
    Option (Except String APIEndpoint) :=
  match insecureLoad with
  | Except.error e => some (Except.error e)
  | Except.ok insecureRegistries =>
    match lookup insecureRegistries with
    | Except.error e => some (Except.error e)
    | Except.ok [] => none
    | Except.ok (e0 :: rest) =>
      if indexSecure then some (Except.ok e0)
      else
        some (Except.ok ((e0 :: rest).foldl
          (fun endpoint ep => if ep.scheme = "http" then ep else endpoint) e0))

/-! Concrete fixtures used by witnesses and counterexamples. -/

/-- A well-formed sha256 digest string. -/
def dA : String := "sha256:aaaaaaaaaaaaaaaaaaaaaaaaaaaaaaaaaaaaaaaaaaaaaaaaaaaaaaaaaaaaaaaa"

/-- A second, distinct well-formed sha256 digest string. -/
def dB : String := "sha256:bbbbbbbbbbbbbbbbbbbbbbbbbbbbbbbbbbbbbbbbbbbbbbbbbbbbbbbbbbbbbbbb"

/-- Docker schema2 manifest media type, used by the concrete scenarios. -/
def mtV2 : String := "application/vnd.docker.distribution.manifest.v2+json"

/-- Concrete target repository: docker.io/myorg/app. -/
def targetRepoFix : RepositoryInfo := ⟨"docker.io", "myorg/app"⟩

/-- Registry oracle answering the manifest-list PUT with a 301 redirect and a
valid digest header. -/
def reg301 : Registry := ⟨fun _ => none, fun _ => none, some ⟨301, dA, ""⟩⟩

/-- Registry oracle answering every referenced-manifest PUT with a 303
redirect whose digest header matches the pushed digest. -/
def reg303 : Registry := ⟨fun _ => none, fun _ => some ⟨303, dA, ""⟩, none⟩

/-- Registry oracle answering every blob-mount POST with 202 Accepted: an
upload was created instead of a cross-repository mount. -/
def reg202 : Registry := ⟨fun _ => some ⟨202, "", ""⟩, fun _ => none, none⟩

/-- Registry oracle whose referenced-manifest PUT succeeds (201) but returns
a digest header different from the expected digest. -/
def regMismatch : Registry := ⟨fun _ => none, fun _ => some ⟨201, dB, ""⟩, none⟩

/-- Registry oracle with no responses at all (transport failure everywhere). -/
def regNone : Registry := ⟨fun _ => none, fun _ => none, none⟩

/-- A referenced-manifest push request with digest `dA`. -/
def mReqA : ManifestPushReq := ⟨"otherorg/base", dA, [], mtV2⟩

/-- A Windows-platform record hosted in a repository different from the
target, referencing one blob. -/
def winRecord : ImgManifestInspect :=
  ⟨"docker.io", "otherorg/base", 1024, mtV2, dA, "amd64", "windows", "", [], "", [], [dB], []⟩

/-- A Linux-platform record hosted in a repository different from the target,
referencing no blobs (only its manifest must be cross-pushed). -/
def linuxRecord : ImgManifestInspect :=
  ⟨"docker.io", "otherorg/base", 1024, mtV2, dA, "amd64", "linux", "", [], "", [], [], []⟩

/-- A record with an empty architecture field. -/
def noArchRecord : ImgManifestInspect :=
  ⟨"docker.io", "myorg/app", 7, mtV2, dA, "", "linux", "", [], "", [], [], []⟩

/-- A record whose registry domain differs from the target registry domain. -/
def foreignRecord : ImgManifestInspect :=
  ⟨"other.registry", "myorg/app", 7, mtV2, dA, "amd64", "linux", "", [], "", [], [], []⟩

/-- Fetch-loop oracle: host a.example fails recoverably with a no-support
error; every other host fails recoverably with an ordinary error. -/
def oracleW : APIEndpoint → FetchOutcome := fun ep =>
  if ep.host = "a.example" then FetchOutcome.failure ⟨true, true, "ns1"⟩
  else FetchOutcome.failure ⟨true, false, "err2"⟩

/-! Helper lemmas shared by the claim theorems. -/

/-- A successful `buildManifestObj` implies the record registry domain equals
the target registry domain. -/
theorem buildManifestObj_ok_domain {targetRepo : RepositoryInfo}
    {mf : ImgManifestInspect} {pr : ManifestDescriptor × RepositoryInfo}
    (h : buildManifestObj targetRepo mf = Except.ok pr) :
    mf.refDomain = targetRepo.domain := by
  by_contra hne
  simp only [buildManifestObj] at h
  rw [if_pos hne] at h
  cases h

/-- A record with matching domain and valid digest passes `buildManifestObj`. -/
theorem buildManifestObj_ok_of {targetRepo : RepositoryInfo} {mf : ImgManifestInspect}
    (hdom : mf.refDomain = targetRepo.domain) (hdig : digestValid mf.digest = true) :
    ∃ pr, buildManifestObj targetRepo mf = Except.ok pr := by
  simp only [buildManifestObj]
  rw [if_neg (by simp [hdom]), if_pos hdig]
  exact ⟨_, rfl⟩

/-- Every record of a successfully built payload has a matching domain, a
nonempty architecture and a nonempty OS. -/
theorem buildPushPayload_ok_props (targetRepo : RepositoryInfo) (targetRepoName : String) :
    ∀ (records : List ImgManifestInspect) (out : BuildOutput),
      buildPushPayload targetRepo targetRepoName records = Except.ok out →
      ∀ mf ∈ records, mf.refDomain = targetRepo.domain ∧ mf.architecture ≠ "" ∧ mf.os ≠ "" := by
  intro records
  induction records with
  | nil => intro out _ mf hmem; cases hmem
  | cons head tail ih =>
    intro out h mf hmem
    simp only [buildPushPayload] at h
    by_cases hempty : (head.architecture == "" || head.os == "") = true
    · rw [if_pos hempty] at h; cases h
    · rw [if_neg hempty] at h
      rcases hb : buildManifestObj targetRepo head with e | pr
      · rw [hb] at h; cases h
      · rw [hb] at h
        rcases htail : buildPushPayload targetRepo targetRepoName tail with e | out2
        · rw [htail] at h; cases h
        · rw [htail] at h
          simp only [Bool.or_eq_true, beq_iff_eq, not_or] at hempty
          rcases List.mem_cons.mp hmem with hmem | hmem
          · exact hmem ▸ ⟨buildManifestObj_ok_domain hb, hempty.1, hempty.2⟩
          · exact ih out2 htail mf hmem

/-- A payload build fails whenever some record has a mismatching domain, an
empty architecture, or an empty OS. -/
theorem buildPushPayload_error_of_bad (targetRepo : RepositoryInfo) (targetRepoName : String)
    (records : List ImgManifestInspect)
    (hbad : ∃ mf ∈ records,
      mf.refDomain ≠ targetRepo.domain ∨ mf.architecture = "" ∨ mf.os = "") :
    ∃ e, buildPushPayload targetRepo targetRepoName records = Except.error e := by
  rcases hres : buildPushPayload targetRepo targetRepoName records with e | out
  · exact ⟨e, rfl⟩
  · exfalso
    rcases hbad with ⟨mf, hmem, hbad⟩
    rcases buildPushPayload_ok_props targetRepo targetRepoName records out hres mf hmem
      with ⟨hdom, harch, hos⟩
    rcases hbad with h | h | h
    · exact h hdom
    · exact harch h
    · exact hos h

/-- A record with an empty architecture or OS at the head of the record list
is rejected with the malformed-manifest error. -/
theorem buildPushPayload_head_malformed (targetRepo : RepositoryInfo) (targetRepoName : String)
    (mf : ImgManifestInspect) (rest : List ImgManifestInspect)
    (h : mf.architecture = "" ∨ mf.os = "") :
    buildPushPayload targetRepo targetRepoName (mf :: rest)
      = Except.error ("malformed manifest object. cannot push to registry") := by
  simp only [buildPushPayload]
  rcases h with h | h <;> rw [if_pos (by simp [h])]

/-- Every event issued by `mountBlobs` is a blob-mount POST. -/
theorem mountBlobs_events (reg : Registry) (ref : String) :
    ∀ (blobs : List BlobMount) (ev : NetEvent), ev ∈ (mountBlobs reg ref blobs).1 →
      ∃ b, ev = NetEvent.mountBlob b := by
  intro blobs
  induction blobs with
  | nil => intro ev h; cases h
  | cons blob rest ih =>
    intro ev h
    simp only [mountBlobs] at h
    split at h
    · exact ⟨blob, List.mem_singleton.mp h⟩
    · split at h
      · exact ⟨blob, List.mem_singleton.mp h⟩
      · rcases List.mem_cons.mp h with h | h
        · exact ⟨blob, h⟩
        · exact ih ev h

/-- Exhaustive case analysis of `putManifestListCore`: the eight possible
control-flow outcomes, each with its exact event trace. -/
theorem putManifestListCore_cases (reg : Registry) (t : RepositoryInfo)
    (tn tr br : String) (purge : Bool) (records : List ImgManifestInspect) :
    (∃ e, buildPushPayload t tn records = Except.error e ∧
       putManifestListCore reg t tn tr br purge records = ([], Except.error e))
    ∨ (∃ out mevs e, buildPushPayload t tn records = Except.ok out ∧
       mountBlobs reg tr out.blobMountRequests = (mevs, Except.error e) ∧
       putManifestListCore reg t tn tr br purge records
         = (mevs, Except.error ("couldn\u0027t mount blobs for cross-repository push: " ++ e)))
    ∨ (∃ out mevs pevs e, buildPushPayload t tn records = Except.ok out ∧
       mountBlobs reg tr out.blobMountRequests = (mevs, Except.ok ()) ∧
       pushReferences reg br out.manifestRequests = (pevs, Except.error e) ∧
       putManifestListCore reg t tn tr br purge records
         = (mevs ++ pevs,
            Except.error ("couldn\u0027t push manifests referenced in our manifest list: " ++ e)))
    ∨ (∃ out mevs pevs, buildPushPayload t tn records = Except.ok out ∧
       mountBlobs reg tr out.blobMountRequests = (mevs, Except.ok ()) ∧
       pushReferences reg br out.manifestRequests = (pevs, Except.ok ()) ∧
       reg.putListResp = none ∧
       putManifestListCore reg t tn tr br purge records
         = (mevs ++ pevs ++ [NetEvent.putList],
            Except.error ("v2 registry PUT of manifest list failed")))
    ∨ (∃ out mevs pevs resp e, buildPushPayload t tn records = Except.ok out ∧
       mountBlobs reg tr out.blobMountRequests = (mevs, Except.ok ()) ∧
       pushReferences reg br out.manifestRequests = (pevs, Except.ok ()) ∧
       reg.putListResp = some resp ∧ statusSuccess resp.statusCode = true ∧
       digestParse resp.dockerContentDigest = Except.error e ∧
       putManifestListCore reg t tn tr br purge records
         = (mevs ++ pevs ++ [NetEvent.putList], Except.error e))
    ∨ (∃ out mevs pevs resp d, buildPushPayload t tn records = Except.ok out ∧
       mountBlobs reg tr out.blobMountRequests = (mevs, Except.ok ()) ∧
       pushReferences reg br out.manifestRequests = (pevs, Except.ok ()) ∧
       reg.putListResp = some resp ∧ statusSuccess resp.statusCode = true ∧
       digestParse resp.dockerContentDigest = Except.ok d ∧ purge = true ∧
       putManifestListCore reg t tn tr br purge records
         = (mevs ++ pevs ++ [NetEvent.putList, NetEvent.purgeFiles], Except.ok d))
    ∨ (∃ out mevs pevs resp d, buildPushPayload t tn records = Except.ok out ∧
       mountBlobs reg tr out.blobMountRequests = (mevs, Except.ok ()) ∧
       pushReferences reg br out.manifestRequests = (pevs, Except.ok ()) ∧
       reg.putListResp = some resp ∧ statusSuccess resp.statusCode = true ∧
       digestParse resp.dockerContentDigest = Except.ok d ∧ purge = false ∧
       putManifestListCore reg t tn tr br purge records
         = (mevs ++ pevs ++ [NetEvent.putList], Except.ok d))
    ∨ (∃ out mevs pevs resp, buildPushPayload t tn records = Except.ok out ∧
       mountBlobs reg tr out.blobMountRequests = (mevs, Except.ok ()) ∧
       pushReferences reg br out.manifestRequests = (pevs, Except.ok ()) ∧
       reg.putListResp = some resp ∧ statusSuccess resp.statusCode = false ∧
       putManifestListCore reg t tn tr br purge records
         = (mevs ++ pevs ++ [NetEvent.putList],
            Except.error ("registry push unsuccessful: response " ++ toString resp.statusCode))) := by
  rcases hbp : buildPushPayload t tn records with e | out
  · refine Or.inl ⟨e, rfl, ?_⟩
    simp [putManifestListCore, hbp]
  · rcases hmb : mountBlobs reg tr out.blobMountRequests with ⟨mevs, me | mu⟩
    · refine Or.inr (Or.inl ⟨out, mevs, me, rfl, hmb, ?_⟩)
      simp [putManifestListCore, hbp, hmb]
    · obtain ⟨⟩ := mu
      rcases hpr : pushReferences reg br out.manifestRequests with ⟨pevs, pe | pu⟩
      · refine Or.inr (Or.inr (Or.inl ⟨out, mevs, pevs, pe, rfl, hmb, hpr, ?_⟩))
        simp [putManifestListCore, hbp, hmb, hpr]
      · obtain ⟨⟩ := pu
        cases hpl : reg.putListResp with
        | none =>
          refine Or.inr (Or.inr (Or.inr (Or.inl ⟨out, mevs, pevs, rfl, hmb, hpr, rfl, ?_⟩)))
          simp [putManifestListCore, hbp, hmb, hpr, hpl]
        | some resp =>
          cases hss : statusSuccess resp.statusCode with
          | false =>
            refine Or.inr (Or.inr (Or.inr (Or.inr (Or.inr (Or.inr (Or.inr
              ⟨out, mevs, pevs, resp, rfl, hmb, hpr, rfl, hss, ?_⟩))))))
            simp [putManifestListCore, hbp, hmb, hpr, hpl, hss]
          | true =>
            rcases hdg : digestParse resp.dockerContentDigest with e | d
            · refine Or.inr (Or.inr (Or.inr (Or.inr (Or.inl
                ⟨out, mevs, pevs, resp, e, rfl, hmb, hpr, rfl, hss, hdg, ?_⟩))))
              simp [putManifestListCore, hbp, hmb, hpr, hpl, hss, hdg]
            · cases purge with
              | true =>
                refine Or.inr (Or.inr (Or.inr (Or.inr (Or.inr (Or.inl
                  ⟨out, mevs, pevs, resp, d, rfl, hmb, hpr, rfl, hss, hdg, rfl, ?_⟩)))))
                simp [putManifestListCore, hbp, hmb, hpr, hpl, hss, hdg]
              | false =>
                refine Or.inr (Or.inr (Or.inr (Or.inr (Or.inr (Or.inr (Or.inl
                  ⟨out, mevs, pevs, resp, d, rfl, hmb, hpr, rfl, hss, hdg, rfl, ?_⟩))))))
                simp [putManifestListCore, hbp, hmb, hpr, hpl, hss, hdg]

/-- Every event issued by `pushReferences` is a referenced-manifest PUT. -/
theorem pushReferences_events (reg : Registry) (ref : String) :
    ∀ (manifests : List ManifestPushReq) (ev : NetEvent),
      ev ∈ (pushReferences reg ref manifests).1 → ∃ m, ev = NetEvent.putManifest m := by
  intro manifests
  induction manifests with
  | nil => intro ev h; cases h
  | cons manifest rest ih =>
    intro ev h
    simp only [pushReferences] at h
    split at h
    · cases h
    · split at h
      · exact ⟨manifest, List.mem_singleton.mp h⟩
      · split at h
        · exact ⟨manifest, List.mem_singleton.mp h⟩
        · split at h
          · exact ⟨manifest, List.mem_singleton.mp h⟩
          · split at h
            · exact ⟨manifest, List.mem_singleton.mp h⟩
            · rcases List.mem_cons.mp h with h | h
              · exact ⟨manifest, h⟩
              · exact ih ev h

/-- C9: the push path deems an HTTP status successful exactly when it lies in
the range 200 to 399; consequently 3xx redirect statuses are accepted as
success: a 301 on the final manifest-list PUT proceeds to the digest parse
and the purge, and a 303 on a referenced-manifest push is accepted and its
digest verified. -/
theorem statusSuccess_range_and_redirects :
    (∀ s : Int, statusSuccess s = decide (200 ≤ s ∧ s ≤ 399))
    ∧ putManifestListCore reg301 targetRepoFix ("myorg/app") ("docker.io/myorg/app")
        ("docker.io/myorg/app") true []
        = ([NetEvent.putList, NetEvent.purgeFiles], Except.ok dA)
    ∧ (pushReferences reg303 ("docker.io/myorg/app") [mReqA]).2 = Except.ok () := by
  refine ⟨?_, ?_, ?_⟩
  · intro s
    by_cases h1 : 200 ≤ s <;> by_cases h2 : s ≤ 399 <;> simp [statusSuccess, h1, h2]
  · rfl
  · rfl

/-- C10: `selectPushEndpoint` error results come only from the collaborator
calls (the insecure-registry load and the endpoint lookup); a successful
lookup is indexed at its first element without an emptiness check, so an
empty endpoint list yields no defined result (the Go code panics with an
index out of range; modelled as `none`) rather than any "no endpoints found"
error; a non-empty lookup always yields an endpoint. -/
theorem selectPushEndpoint_unchecked_first :
    (∀ (e : String) lookup secure,
       selectPushEndpoint (Except.error e) lookup secure = some (Except.error e))
    ∧ (∀ ins lookup secure (e : String), lookup ins = Except.error e →
       selectPushEndpoint (Except.ok ins) lookup secure = some (Except.error e))
    ∧ (∀ ins lookup secure, lookup ins = Except.ok [] →
       selectPushEndpoint (Except.ok ins) lookup secure = none)
    ∧ (∀ ins lookup secure e0 rest, lookup ins = Except.ok (e0 :: rest) →
       ∃ ep, selectPushEndpoint (Except.ok ins) lookup secure = some (Except.ok ep)) := by
  refine ⟨fun e lookup secure => rfl, ?_, ?_, ?_⟩
  · intro ins lookup secure e h
    simp [selectPushEndpoint, h]
  · intro ins lookup secure h
    simp [selectPushEndpoint, h]
  · intro ins lookup secure e0 rest h
    cases secure <;> simp [selectPushEndpoint, h]

/-- Witness for the endpoint-selection claim: an empty lookup result has no
defined outcome. -/
theorem selectPushEndpoint_unchecked_first_witness :
    selectPushEndpoint (Except.ok []) (fun _ => Except.ok []) true = none :=
  selectPushEndpoint_unchecked_first.2.2.1 [] (fun _ => Except.ok []) true rfl

/-- The mount phase never emits a list PUT event. -/
theorem mountBlobs_no_putList (reg : Registry) (ref : String) (blobs : List BlobMount) :
    NetEvent.putList ∉ (mountBlobs reg ref blobs).1 := by
  intro h
  rcases mountBlobs_events reg ref blobs _ h with ⟨b, hb⟩
  cases hb

/-- The mount phase never emits a purge event. -/
theorem mountBlobs_no_purge (reg : Registry) (ref : String) (blobs : List BlobMount) :
    NetEvent.purgeFiles ∉ (mountBlobs reg ref blobs).1 := by
  intro h
  rcases mountBlobs_events reg ref blobs _ h with ⟨b, hb⟩
  cases hb

/-- The mount phase never emits a referenced-manifest PUT event. -/
theorem mountBlobs_no_putManifest (reg : Registry) (ref : String) (blobs : List BlobMount)
    (r : ManifestPushReq) : NetEvent.putManifest r ∉ (mountBlobs reg ref blobs).1 := by
  intro h
  rcases mountBlobs_events reg ref blobs _ h with ⟨b, hb⟩
  cases hb

/-- The reference-push phase never emits a list PUT event. -/
theorem pushReferences_no_putList (reg : Registry) (ref : String)
    (manifests : List ManifestPushReq) :
    NetEvent.putList ∉ (pushReferences reg ref manifests).1 := by
  intro h
  rcases pushReferences_events reg ref manifests _ h with ⟨m, hm⟩
  cases hm

/-- The reference-push phase never emits a purge event. -/
theorem pushReferences_no_purge (reg : Registry) (ref : String)
    (manifests : List ManifestPushReq) :
    NetEvent.purgeFiles ∉ (pushReferences reg ref manifests).1 := by
  intro h
  rcases pushReferences_events reg ref manifests _ h with ⟨m, hm⟩
  cases hm

/-- C5: a record whose registry host differs from the target registry host
makes `buildManifestObj` fail with the cross-registry error (the claimed
message is a prefix of the produced message, which appends the two
hostnames); consequently the whole payload build fails and no partial list
is produced; and every record of a successfully built payload carries the
target registry host. -/
theorem buildManifestObj_cross_registry_rejected :
    (∀ (targetRepo : RepositoryInfo) (mf : ImgManifestInspect),
       mf.refDomain ≠ targetRepo.domain →
       ∃ tail, buildManifestObj targetRepo mf = Except.error
         ("cannot use source images from a different registry than the target" ++ tail))
    ∧ (∀ (targetRepo : RepositoryInfo) (targetRepoName : String)
         (records : List ImgManifestInspect),
       (∃ mf ∈ records, mf.refDomain ≠ targetRepo.domain) →
       ∃ e, buildPushPayload targetRepo targetRepoName records = Except.error e)
    ∧ (∀ (targetRepo : RepositoryInfo) (targetRepoName : String)
         (records : List ImgManifestInspect) (out : BuildOutput),
       buildPushPayload targetRepo targetRepoName records = Except.ok out →
       ∀ mf ∈ records, mf.refDomain = targetRepo.domain) := by
  refine ⟨?_, ?_, ?_⟩
  · intro targetRepo mf h
    refine ⟨" image: " ++ mf.refDomain ++ " != " ++ targetRepo.domain, ?_⟩
    simp only [buildManifestObj]
    rw [if_pos h]
    have hsplit :
        ("cannot use source images from a different registry than the target image: " : String)
          = "cannot use source images from a different registry than the target"
            ++ " image: " := by decide
    rw [hsplit]
    simp only [String.append_assoc]
  · intro targetRepo targetRepoName records hbad
    exact buildPushPayload_error_of_bad targetRepo targetRepoName records
      (hbad.imp (fun mf h => ⟨h.1, Or.inl h.2⟩))
  · intro targetRepo targetRepoName records out h mf hmem
    exact (buildPushPayload_ok_props targetRepo targetRepoName records out h mf hmem).1

/-- Witness for the cross-registry rejection: a record from another registry
host makes the payload build fail. -/
theorem buildManifestObj_cross_registry_rejected_witness :
    foreignRecord.refDomain ≠ targetRepoFix.domain
    ∧ (∃ tail, buildManifestObj targetRepoFix foreignRecord = Except.error
        ("cannot use source images from a different registry than the target" ++ tail))
    ∧ (∃ e, buildPushPayload targetRepoFix ("myorg/app") [foreignRecord] = Except.error e) :=
  ⟨by decide,
   buildManifestObj_cross_registry_rejected.1 targetRepoFix foreignRecord (by decide),
   buildManifestObj_cross_registry_rejected.2.1 targetRepoFix ("myorg/app") [foreignRecord]
     ⟨foreignRecord, List.mem_singleton.mpr rfl, by decide⟩⟩

/-- C6 counterexample: a record with an empty architecture is rejected, but
with the error "malformed manifest object. cannot push to registry", not
with the claimed message "manifest must have an OS and Architecture to be
pushed". -/
theorem buildPushPayload_missing_platform_message_cex :
    buildPushPayload targetRepoFix ("myorg/app") [noArchRecord]
      = Except.error ("malformed manifest object. cannot push to registry")
    ∧ ("malformed manifest object. cannot push to registry"
        ≠ "manifest must have an OS and Architecture to be pushed") :=
  ⟨rfl, by decide⟩

/-- C6 amended: a record with an empty architecture or OS always makes the
payload build fail, regardless of its position; the reported error is
"malformed manifest object. cannot push to registry" when the records before
it pass their own checks. -/
theorem buildPushPayload_missing_platform_rejected :
    (∀ (targetRepo : RepositoryInfo) (targetRepoName : String)
       (records : List ImgManifestInspect),
       (∃ mf ∈ records, mf.architecture = "" ∨ mf.os = "") →
       ∃ e, buildPushPayload targetRepo targetRepoName records = Except.error e)
    ∧ (∀ (targetRepo : RepositoryInfo) (targetRepoName : String)
         (pre rest : List ImgManifestInspect) (mf : ImgManifestInspect),
       (∀ r ∈ pre, r.architecture ≠ "" ∧ r.os ≠ "" ∧ r.refDomain = targetRepo.domain
          ∧ digestValid r.digest = true) →
       (mf.architecture = "" ∨ mf.os = "") →
       buildPushPayload targetRepo targetRepoName (pre ++ mf :: rest)
         = Except.error ("malformed manifest object. cannot push to registry")) := by
  constructor
  · intro targetRepo targetRepoName records hbad
    exact buildPushPayload_error_of_bad targetRepo targetRepoName records
      (hbad.imp (fun mf h => ⟨h.1, Or.inr h.2⟩))
  · intro targetRepo targetRepoName pre
    induction pre with
    | nil =>
      intro rest mf _ hmf
      exact buildPushPayload_head_malformed targetRepo targetRepoName mf rest hmf
    | cons r pre ih =>
      intro rest mf hpre hmf
      have hr := hpre r (List.mem_cons_self r pre)
      have hcond : (r.architecture == "" || r.os == "") = false := by
        simp [hr.1, hr.2.1]
      obtain ⟨⟨m, ri⟩, hbo⟩ := buildManifestObj_ok_of hr.2.2.1 hr.2.2.2
      have hrec := ih rest mf (fun x hx => hpre x (List.mem_cons_of_mem r hx)) hmf
      simp [List.cons_append, buildPushPayload, hcond, hbo, hrec]

/-- Witness for the amended missing-platform claim: an empty-architecture
record in second position is rejected with the malformed-manifest error. -/
theorem buildPushPayload_missing_platform_rejected_witness :
    buildPushPayload targetRepoFix ("myorg/app") ([linuxRecord] ++ noArchRecord :: [])
      = Except.error ("malformed manifest object. cannot push to registry") :=
  buildPushPayload_missing_platform_rejected.2 targetRepoFix ("myorg/app")
    [linuxRecord] [] noArchRecord (by decide) (Or.inl rfl)

/-- C4 counterexample: for a Windows-platform source record, a blob-mount
response indicating the blob was freshly created instead of mounted (202
Accepted rather than 201 Created) is treated as a fatal error — it is not
ignored, contradicting the claimed Windows exemption. -/
theorem mountBlobs_windows_not_exempt_cex :
    winRecord.os = "windows"
    ∧ (mountBlobs reg202 ("docker.io/myorg/app") [⟨"otherorg/base", dB⟩]).2
        = Except.error ("blob mount failed to url "
            ++ buildBlobUploadURL ("docker.io/myorg/app") ⟨"otherorg/base", dB⟩
            ++ ": HTTP status 202")
    ∧ (∃ e, (putManifestListCore reg202 targetRepoFix ("myorg/app") ("docker.io/myorg/app")
        ("docker.io/myorg/app") true [winRecord]).2 = Except.error e) :=
  ⟨rfl, rfl, ⟨_, rfl⟩⟩

/-- C4 amended: during blob mounting, any response other than 201 Created
(including the 202 created-instead-of-mounted response, and transport
errors) is fatal for every platform: `mountBlobs` consults no platform field
at all, so no platform — Windows included — is exempt. -/
theorem mountBlobs_nonmount_fatal_every_platform :
    ∀ (reg : Registry) (ref : String) (blobs : List BlobMount) (b : BlobMount),
      b ∈ blobs →
      (∀ resp, reg.mountBlobResp b = some resp → resp.statusCode ≠ 201) →
      ∃ e, (mountBlobs reg ref blobs).2 = Except.error e := by
  intro reg ref blobs
  induction blobs with
  | nil => intro b hb; cases hb
  | cons blob rest ih =>
    intro b hb hresp
    simp only [mountBlobs]
    split
    · exact ⟨_, rfl⟩
    · split
      · exact ⟨_, rfl⟩
      · rcases List.mem_cons.mp hb with hb | hb
        · rename_i resp heq h201
          subst hb
          exact absurd (hresp resp heq) (fun hne => h201 hne)
        · exact ih b hb hresp

/-- Witness for the amended mount-failure claim: the 202-answering registry
makes the mount phase fail. -/
theorem mountBlobs_nonmount_fatal_every_platform_witness :
    ∃ e, (mountBlobs reg202 ("docker.io/myorg/app") [⟨"otherorg/base", dB⟩]).2
      = Except.error e :=
  mountBlobs_nonmount_fatal_every_platform reg202 ("docker.io/myorg/app")
    [⟨"otherorg/base", dB⟩] ⟨"otherorg/base", dB⟩ (List.mem_singleton.mpr rfl)
    (fun resp h => by
      have h3 := Option.some.inj h
      rw [← h3]
      decide)

/-- C3: if a referenced-manifest push receives a success response whose
digest header differs from the expected digest, `pushReferences` fails with
the digest-mismatch error (the source prints the parsed request digest for
both values), and when the reference-push phase fails the manifest-list PUT
is never issued. -/
theorem pushReferences_digest_mismatch_aborts :
    (∀ (reg : Registry) (ref : String) (m : ManifestPushReq)
       (rest : List ManifestPushReq) (resp : HttpResponse),
       digestValid m.digest = true →
       reg.putManifestResp m = some resp →
       statusSuccess resp.statusCode = true →
       digestValid resp.dockerContentDigest = true →
       resp.dockerContentDigest ≠ m.digest →
       (pushReferences reg ref (m :: rest)).2
         = Except.error ("pushed referenced manifest received a different digest: expected "
             ++ m.digest ++ ", got " ++ m.digest))
    ∧ (∀ (reg : Registry) (t : RepositoryInfo) (tn tr br : String) (purge : Bool)
         (records : List ImgManifestInspect) (out : BuildOutput),
       buildPushPayload t tn records = Except.ok out →
       (∃ e, (pushReferences reg br out.manifestRequests).2 = Except.error e) →
       NetEvent.putList ∉ (putManifestListCore reg t tn tr br purge records).1) := by
  constructor
  · intro reg ref m rest resp h1 h2 h3 h4 h5
    simp [pushReferences, digestParse, h1, h2, h3, h4, h5]
  · intro reg t tn tr br purge records out hbp hpe hmem
    rcases hpe with ⟨e, hpe⟩
    rcases putManifestListCore_cases reg t tn tr br purge records with
        ⟨e1, hb, hcore⟩
      | ⟨out1, mevs, e1, hb, hmb, hcore⟩
      | ⟨out1, mevs, pevs, e1, hb, hmb, hpr, hcore⟩
      | ⟨out1, mevs, pevs, hb, hmb, hpr, hpl, hcore⟩
      | ⟨out1, mevs, pevs, resp, e1, hb, hmb, hpr, hpl, hss, hdg, hcore⟩
      | ⟨out1, mevs, pevs, resp, d1, hb, hmb, hpr, hpl, hss, hdg, hpu, hcore⟩
      | ⟨out1, mevs, pevs, resp, d1, hb, hmb, hpr, hpl, hss, hdg, hpu, hcore⟩
      | ⟨out1, mevs, pevs, resp, hb, hmb, hpr, hpl, hss, hcore⟩
    · rw [hbp] at hb; cases hb
    · rw [hcore] at hmem
      exact mountBlobs_no_putList reg tr out1.blobMountRequests (by rw [hmb]; exact hmem)
    · rw [hcore] at hmem
      rcases List.mem_append.mp hmem with h | h
      · exact mountBlobs_no_putList reg tr out1.blobMountRequests (by rw [hmb]; exact h)
      · exact pushReferences_no_putList reg br out1.manifestRequests (by rw [hpr]; exact h)
    · rw [hbp] at hb; injection hb with hout; subst hout
      rw [hpr] at hpe; cases hpe
    · rw [hbp] at hb; injection hb with hout; subst hout
      rw [hpr] at hpe; cases hpe
    · rw [hbp] at hb; injection hb with hout; subst hout
      rw [hpr] at hpe; cases hpe
    · rw [hbp] at hb; injection hb with hout; subst hout
      rw [hpr] at hpe; cases hpe
    · rw [hbp] at hb; injection hb with hout; subst hout
      rw [hpr] at hpe; cases hpe

/-- Witness for the digest-mismatch claim: a mismatching 201 response makes
the reference push fail, and with one cross-repository record the list PUT
is never issued. -/
theorem pushReferences_digest_mismatch_aborts_witness :
    (pushReferences regMismatch ("docker.io/myorg/app") [mReqA]).2
      = Except.error ("pushed referenced manifest received a different digest: expected "
          ++ dA ++ ", got " ++ dA)
    ∧ NetEvent.putList ∉ (putManifestListCore regMismatch targetRepoFix ("myorg/app")
        ("docker.io/myorg/app") ("docker.io/myorg/app") true [linuxRecord]).1 := by
  constructor
  · exact pushReferences_digest_mismatch_aborts.1 regMismatch ("docker.io/myorg/app")
      mReqA [] ⟨201, dB, ""⟩ (by decide) rfl (by decide) (by decide) (by decide)
  · exact pushReferences_digest_mismatch_aborts.2 regMismatch targetRepoFix ("myorg/app")
      ("docker.io/myorg/app") ("docker.io/myorg/app") true [linuxRecord]
      ⟨[⟨dA, 1024, mtV2, ⟨"amd64", "linux", "", [], "", []⟩⟩], [], [mReqA]⟩ rfl ⟨_, rfl⟩

/-- C1: with purge requested, the purge of the staged entries happens only
when the manifest-list PUT returned a success status — the purge event
appears only at the very end of the trace, right after the list PUT — and
any failing outcome (transport error, non-success status, or any earlier
error) produces no purge event, leaving the staging state intact and
retryable. -/
theorem putManifestList_purge_only_after_success :
    ∀ (reg : Registry) (t : RepositoryInfo) (tn tr br : String)
      (records : List ImgManifestInspect),
    (NetEvent.purgeFiles ∈ (putManifestListCore reg t tn tr br true records).1 →
      ∃ resp pre, reg.putListResp = some resp ∧ statusSuccess resp.statusCode = true ∧
        (putManifestListCore reg t tn tr br true records).1
          = pre ++ [NetEvent.putList, NetEvent.purgeFiles])
    ∧ ((∃ e, (putManifestListCore reg t tn tr br true records).2 = Except.error e) →
      NetEvent.purgeFiles ∉ (putManifestListCore reg t tn tr br true records).1) := by
  intro reg t tn tr br records
  rcases putManifestListCore_cases reg t tn tr br true records with
      ⟨e1, hb, hcore⟩
    | ⟨out1, mevs, e1, hb, hmb, hcore⟩
    | ⟨out1, mevs, pevs, e1, hb, hmb, hpr, hcore⟩
    | ⟨out1, mevs, pevs, hb, hmb, hpr, hpl, hcore⟩
    | ⟨out1, mevs, pevs, resp, e1, hb, hmb, hpr, hpl, hss, hdg, hcore⟩
    | ⟨out1, mevs, pevs, resp, d1, hb, hmb, hpr, hpl, hss, hdg, hpu, hcore⟩
    | ⟨out1, mevs, pevs, resp, d1, hb, hmb, hpr, hpl, hss, hdg, hpu, hcore⟩
    | ⟨out1, mevs, pevs, resp, hb, hmb, hpr, hpl, hss, hcore⟩
  · constructor
    · intro hmem; rw [hcore] at hmem; cases hmem
    · intro _ hmem; rw [hcore] at hmem; cases hmem
  · have hnot : NetEvent.purgeFiles ∉ mevs := fun hmem =>
      mountBlobs_no_purge reg tr out1.blobMountRequests (by rw [hmb]; exact hmem)
    constructor
    · intro hmem; rw [hcore] at hmem; exact absurd hmem hnot
    · intro _ hmem; rw [hcore] at hmem; exact hnot hmem
  · have hnot : NetEvent.purgeFiles ∉ (mevs ++ pevs : List NetEvent) := by
      intro hmem
      rcases List.mem_append.mp hmem with h | h
      · exact mountBlobs_no_purge reg tr out1.blobMountRequests (by rw [hmb]; exact h)
      · exact pushReferences_no_purge reg br out1.manifestRequests (by rw [hpr]; exact h)
    constructor
    · intro hmem; rw [hcore] at hmem; exact absurd hmem hnot
    · intro _ hmem; rw [hcore] at hmem; exact hnot hmem
  · have hnot : NetEvent.purgeFiles ∉ (mevs ++ pevs ++ [NetEvent.putList] : List NetEvent) := by
      intro hmem
      rcases List.mem_append.mp hmem with h | h
      · rcases List.mem_append.mp h with h | h
        · exact mountBlobs_no_purge reg tr out1.blobMountRequests (by rw [hmb]; exact h)
        · exact pushReferences_no_purge reg br out1.manifestRequests (by rw [hpr]; exact h)
      · cases List.mem_singleton.mp h
    constructor
    · intro hmem; rw [hcore] at hmem; exact absurd hmem hnot
    · intro _ hmem; rw [hcore] at hmem; exact hnot hmem
  · have hnot : NetEvent.purgeFiles ∉ (mevs ++ pevs ++ [NetEvent.putList] : List NetEvent) := by
      intro hmem
      rcases List.mem_append.mp hmem with h | h
      · rcases List.mem_append.mp h with h | h
        · exact mountBlobs_no_purge reg tr out1.blobMountRequests (by rw [hmb]; exact h)
        · exact pushReferences_no_purge reg br out1.manifestRequests (by rw [hpr]; exact h)
      · cases List.mem_singleton.mp h
    constructor
    · intro hmem; rw [hcore] at hmem; exact absurd hmem hnot
    · intro _ hmem; rw [hcore] at hmem; exact hnot hmem
  · constructor
    · intro _
      exact ⟨resp, mevs ++ pevs, hpl, hss, by rw [hcore]⟩
    · rintro ⟨e, he⟩
      rw [hcore] at he
      cases he
  · cases hpu
  · have hnot : NetEvent.purgeFiles ∉ (mevs ++ pevs ++ [NetEvent.putList] : List NetEvent) := by
      intro hmem
      rcases List.mem_append.mp hmem with h | h
      · rcases List.mem_append.mp h with h | h
        · exact mountBlobs_no_purge reg tr out1.blobMountRequests (by rw [hmb]; exact h)
        · exact pushReferences_no_purge reg br out1.manifestRequests (by rw [hpr]; exact h)
      · cases List.mem_singleton.mp h
    constructor
    · intro hmem; rw [hcore] at hmem; exact absurd hmem hnot
    · intro _ hmem; rw [hcore] at hmem; exact hnot hmem

/-- Witness for the purge claim: with a transport failure on the list PUT,
the failing push produces no purge event. -/
theorem putManifestList_purge_only_after_success_witness :
    NetEvent.purgeFiles ∉ (putManifestListCore regNone targetRepoFix ("myorg/app")
      ("docker.io/myorg/app") ("docker.io/myorg/app") true []).1 :=
  (putManifestList_purge_only_after_success regNone targetRepoFix ("myorg/app")
    ("docker.io/myorg/app") ("docker.io/myorg/app") []).2 ⟨_, rfl⟩

/-- C2: the trace of one push invocation is blob mounts, then
referenced-manifest PUTs, then at most one list PUT (followed only by the
purge); a mount-phase error aborts with an error result before any
referenced-manifest PUT and before the list PUT; a reference-push error
aborts with an error result before the list PUT; and the list PUT is issued
only when validation, all mounts and all reference pushes succeeded. -/
theorem putManifestList_phase_order :
    ∀ (reg : Registry) (t : RepositoryInfo) (tn tr br : String) (purge : Bool)
      (records : List ImgManifestInspect),
    (∃ m p last, (putManifestListCore reg t tn tr br purge records).1 = m ++ p ++ last ∧
       (∀ ev ∈ m, ∃ b, ev = NetEvent.mountBlob b) ∧
       (∀ ev ∈ p, ∃ r, ev = NetEvent.putManifest r) ∧
       (last = [] ∨ last = [NetEvent.putList]
         ∨ last = [NetEvent.putList, NetEvent.purgeFiles]))
    ∧ (∀ out, buildPushPayload t tn records = Except.ok out →
       (∃ e, (mountBlobs reg tr out.blobMountRequests).2 = Except.error e) →
       (∀ r, NetEvent.putManifest r ∉ (putManifestListCore reg t tn tr br purge records).1) ∧
       NetEvent.putList ∉ (putManifestListCore reg t tn tr br purge records).1 ∧
       (∃ e, (putManifestListCore reg t tn tr br purge records).2 = Except.error e))
    ∧ (∀ out, buildPushPayload t tn records = Except.ok out →
       (∃ e, (pushReferences reg br out.manifestRequests).2 = Except.error e) →
       NetEvent.putList ∉ (putManifestListCore reg t tn tr br purge records).1 ∧
       (∃ e, (putManifestListCore reg t tn tr br purge records).2 = Except.error e))
    ∧ (NetEvent.putList ∈ (putManifestListCore reg t tn tr br purge records).1 →
       ∃ out, buildPushPayload t tn records = Except.ok out ∧
         (mountBlobs reg tr out.blobMountRequests).2 = Except.ok () ∧
         (pushReferences reg br out.manifestRequests).2 = Except.ok ()) := by
  intro reg t tn tr br purge records
  rcases putManifestListCore_cases reg t tn tr br purge records with
      ⟨e1, hb, hcore⟩
    | ⟨out1, mevs, e1, hb, hmb, hcore⟩
    | ⟨out1, mevs, pevs, e1, hb, hmb, hpr, hcore⟩
    | ⟨out1, mevs, pevs, hb, hmb, hpr, hpl, hcore⟩
    | ⟨out1, mevs, pevs, resp, e1, hb, hmb, hpr, hpl, hss, hdg, hcore⟩
    | ⟨out1, mevs, pevs, resp, d1, hb, hmb, hpr, hpl, hss, hdg, hpu, hcore⟩
    | ⟨out1, mevs, pevs, resp, d1, hb, hmb, hpr, hpl, hss, hdg, hpu, hcore⟩
    | ⟨out1, mevs, pevs, resp, hb, hmb, hpr, hpl, hss, hcore⟩
  · refine ⟨⟨[], [], [], by rw [hcore]; rfl, ?_, ?_, Or.inl rfl⟩, ?_, ?_, ?_⟩
    · intro ev h; cases h
    · intro ev h; cases h
    · intro out hbp; rw [hbp] at hb; cases hb
    · intro out hbp; rw [hbp] at hb; cases hb
    · intro hmem; rw [hcore] at hmem; cases hmem
  · refine ⟨⟨mevs, [], [], by rw [hcore]; simp, ?_, ?_, Or.inl rfl⟩, ?_, ?_, ?_⟩
    · intro ev h
      exact mountBlobs_events reg tr out1.blobMountRequests ev (by rw [hmb]; exact h)
    · intro ev h; cases h
    · intro out hbp _
      rw [hbp] at hb; injection hb with hout; subst hout
      refine ⟨?_, ?_, ⟨_, by rw [hcore]⟩⟩
      · intro r hmem; rw [hcore] at hmem
        exact mountBlobs_no_putManifest reg tr out.blobMountRequests r
          (by rw [hmb]; exact hmem)
      · intro hmem; rw [hcore] at hmem
        exact mountBlobs_no_putList reg tr out.blobMountRequests (by rw [hmb]; exact hmem)
    · intro out hbp _
      rw [hbp] at hb; injection hb with hout; subst hout
      refine ⟨?_, ⟨_, by rw [hcore]⟩⟩
      intro hmem; rw [hcore] at hmem
      exact mountBlobs_no_putList reg tr out.blobMountRequests (by rw [hmb]; exact hmem)
    · intro hmem; rw [hcore] at hmem
      exact absurd hmem (mountBlobs_no_putList reg tr out1.blobMountRequests ∘ (by
        intro h; rw [hmb]; exact h))
  · have hnotL : NetEvent.putList ∉ (mevs ++ pevs : List NetEvent) := by
      intro hmem
      rcases List.mem_append.mp hmem with h | h
      · exact mountBlobs_no_putList reg tr out1.blobMountRequests (by rw [hmb]; exact h)
      · exact pushReferences_no_putList reg br out1.manifestRequests (by rw [hpr]; exact h)
    refine ⟨⟨mevs, pevs, [], by rw [hcore]; simp, ?_, ?_, Or.inl rfl⟩, ?_, ?_, ?_⟩
    · intro ev h
      exact mountBlobs_events reg tr out1.blobMountRequests ev (by rw [hmb]; exact h)
    · intro ev h
      exact pushReferences_events reg br out1.manifestRequests ev (by rw [hpr]; exact h)
    · intro out hbp ⟨e, hme⟩
      rw [hbp] at hb; injection hb with hout; subst hout
      rw [hmb] at hme; cases hme
    · intro out hbp _
      rw [hbp] at hb; injection hb with hout; subst hout
      exact ⟨fun hmem => hnotL (by rw [hcore] at hmem; exact hmem), ⟨_, by rw [hcore]⟩⟩
    · intro hmem; rw [hcore] at hmem; exact absurd hmem hnotL
  · refine ⟨⟨mevs, pevs, [NetEvent.putList], by rw [hcore], ?_, ?_, Or.inr (Or.inl rfl)⟩,
      ?_, ?_, ?_⟩
    · intro ev h
      exact mountBlobs_events reg tr out1.blobMountRequests ev (by rw [hmb]; exact h)
    · intro ev h
      exact pushReferences_events reg br out1.manifestRequests ev (by rw [hpr]; exact h)
    · intro out hbp ⟨e, hme⟩
      rw [hbp] at hb; injection hb with hout; subst hout
      rw [hmb] at hme; cases hme
    · intro out hbp ⟨e, hpe⟩
      rw [hbp] at hb; injection hb with hout; subst hout
      rw [hpr] at hpe; cases hpe
    · intro _
      exact ⟨out1, hb, by rw [hmb], by rw [hpr]⟩
  · refine ⟨⟨mevs, pevs, [NetEvent.putList], by rw [hcore], ?_, ?_, Or.inr (Or.inl rfl)⟩,
      ?_, ?_, ?_⟩
    · intro ev h
      exact mountBlobs_events reg tr out1.blobMountRequests ev (by rw [hmb]; exact h)
    · intro ev h
      exact pushReferences_events reg br out1.manifestRequests ev (by rw [hpr]; exact h)
    · intro out hbp ⟨e, hme⟩
      rw [hbp] at hb; injection hb with hout; subst hout
      rw [hmb] at hme; cases hme
    · intro out hbp ⟨e, hpe⟩
      rw [hbp] at hb; injection hb with hout; subst hout
      rw [hpr] at hpe; cases hpe
    · intro _
      exact ⟨out1, hb, by rw [hmb], by rw [hpr]⟩
  · refine ⟨⟨mevs, pevs, [NetEvent.putList, NetEvent.purgeFiles], by rw [hcore], ?_, ?_,
      Or.inr (Or.inr rfl)⟩, ?_, ?_, ?_⟩
    · intro ev h
      exact mountBlobs_events reg tr out1.blobMountRequests ev (by rw [hmb]; exact h)
    · intro ev h
      exact pushReferences_events reg br out1.manifestRequests ev (by rw [hpr]; exact h)
    · intro out hbp ⟨e, hme⟩
      rw [hbp] at hb; injection hb with hout; subst hout
      rw [hmb] at hme; cases hme
    · intro out hbp ⟨e, hpe⟩
      rw [hbp] at hb; injection hb with hout; subst hout
      rw [hpr] at hpe; cases hpe
    · intro _
      exact ⟨out1, hb, by rw [hmb], by rw [hpr]⟩
  · refine ⟨⟨mevs, pevs, [NetEvent.putList], by rw [hcore], ?_, ?_, Or.inr (Or.inl rfl)⟩,
      ?_, ?_, ?_⟩
    · intro ev h
      exact mountBlobs_events reg tr out1.blobMountRequests ev (by rw [hmb]; exact h)
    · intro ev h
      exact pushReferences_events reg br out1.manifestRequests ev (by rw [hpr]; exact h)
    · intro out hbp ⟨e, hme⟩
      rw [hbp] at hb; injection hb with hout; subst hout
      rw [hmb] at hme; cases hme
    · intro out hbp ⟨e, hpe⟩
      rw [hbp] at hb; injection hb with hout; subst hout
      rw [hpr] at hpe; cases hpe
    · intro _
      exact ⟨out1, hb, by rw [hmb], by rw [hpr]⟩
  · refine ⟨⟨mevs, pevs, [NetEvent.putList], by rw [hcore], ?_, ?_, Or.inr (Or.inl rfl)⟩,
      ?_, ?_, ?_⟩
    · intro ev h
      exact mountBlobs_events reg tr out1.blobMountRequests ev (by rw [hmb]; exact h)
    · intro ev h
      exact pushReferences_events reg br out1.manifestRequests ev (by rw [hpr]; exact h)
    · intro out hbp ⟨e, hme⟩
      rw [hbp] at hb; injection hb with hout; subst hout
      rw [hmb] at hme; cases hme
    · intro out hbp ⟨e, hpe⟩
      rw [hbp] at hb; injection hb with hout; subst hout
      rw [hpr] at hpe; cases hpe
    · intro _
      exact ⟨out1, hb, by rw [hmb], by rw [hpr]⟩

/-- Witness for the phase-order claim: with a 202-answering registry and one
cross-repository record, the mount phase fails, so no referenced-manifest
PUT and no list PUT is issued and the push errors. -/
theorem putManifestList_phase_order_witness :
    NetEvent.putList ∉ (putManifestListCore reg202 targetRepoFix ("myorg/app")
      ("docker.io/myorg/app") ("docker.io/myorg/app") true [winRecord]).1
    ∧ (∃ e, (putManifestListCore reg202 targetRepoFix ("myorg/app")
        ("docker.io/myorg/app") ("docker.io/myorg/app") true [winRecord]).2
          = Except.error e) := by
  have h := (putManifestList_phase_order reg202 targetRepoFix ("myorg/app")
    ("docker.io/myorg/app") ("docker.io/myorg/app") true [winRecord]).2.1
    ⟨[⟨dA, 1024, mtV2, ⟨"amd64", "windows", "", [], "", []⟩⟩],
      [⟨"otherorg/base", dB⟩], [⟨"otherorg/base", dA, [], mtV2⟩]⟩ rfl ⟨_, rfl⟩
  exact ⟨h.2.1, h.2.2⟩

/-- The recoverable-failure state update always extends the TLS-confirmed set
with the host exactly when the attempt was over https. -/
theorem fetchLoopNextState_confirmed (st : FetchLoopState) (endpoint : APIEndpoint)
    (e : FetchFailure) :
    (fetchLoopNextState st endpoint e).confirmedTLSRegistries
      = if endpoint.scheme = "https" then endpoint.host :: st.confirmedTLSRegistries
        else st.confirmedTLSRegistries := by
  by_cases h1 : (!e.noSupport) = true
  · simp [fetchLoopNextState, h1]
  · by_cases h2 : (!st.discardNoSupportErrors) = true
    · simp [fetchLoopNextState, h1, h2]
    · simp [fetchLoopNextState, h1, h2]

/-- The recoverable-failure state update implements one step of the
spec-side retention fold. -/
theorem fetchLoopNextState_spec (st : FetchLoopState) (endpoint : APIEndpoint)
    (e : FetchFailure) (rest : List FetchFailure) :
    specRetainTieBreak (fetchLoopNextState st endpoint e).discardNoSupportErrors
      (fetchLoopNextState st endpoint e).lastErr rest
    = specRetainTieBreak st.discardNoSupportErrors st.lastErr (e :: rest) := by
  by_cases h1 : (!e.noSupport) = true
  · simp [fetchLoopNextState, specRetainTieBreak, h1]
  · by_cases h2 : (!st.discardNoSupportErrors) = true
    · simp [fetchLoopNextState, specRetainTieBreak, h1, h2]
    · simp [fetchLoopNextState, specRetainTieBreak, h1, h2]

/-- Invariant of the endpoint loop: every attempted non-https endpoint has a
host outside the starting TLS-confirmed set, and in the attempted list no
recoverably-failing https attempt is ever followed by a non-https attempt at
the same host. -/
theorem getImageDataLoop_no_downgrade (oracle : APIEndpoint → FetchOutcome) (name : String) :
    ∀ (eps : List APIEndpoint) (st : FetchLoopState),
      (∀ ep ∈ (getImageDataLoop oracle name eps st).1,
          ep.scheme ≠ "https" → ep.host ∉ st.confirmedTLSRegistries)
      ∧ ((getImageDataLoop oracle name eps st).1).Pairwise (fun a b =>
          a.scheme = "https" →
          (∃ e, oracle a = FetchOutcome.failure e ∧ e.recoverable = true) →
          b.scheme ≠ "https" → b.host ≠ a.host) := by
  intro eps
  induction eps with
  | nil =>
    intro st
    constructor
    · intro ep hep
      simp [getImageDataLoop] at hep
    · simp [getImageDataLoop]
  | cons endpoint rest ih =>
    intro st
    by_cases hv : endpoint.version = APIVersion.v1
    · have hred : getImageDataLoop oracle name (endpoint :: rest) st
          = getImageDataLoop oracle name rest st := by
        simp [getImageDataLoop, hv]
      rw [hred]
      exact ih st
    · by_cases hskip : endpoint.scheme ≠ "https" ∧ endpoint.host ∈ st.confirmedTLSRegistries
      · have hred : getImageDataLoop oracle name (endpoint :: rest) st
            = getImageDataLoop oracle name rest st := by
          simp only [getImageDataLoop, if_neg hv, if_pos hskip]
        rw [hred]
        exact ih st
      · cases hnf : newManifestFetcherOk endpoint.version with
        | error e =>
          have hred : getImageDataLoop oracle name (endpoint :: rest) st
              = getImageDataLoop oracle name rest { st with lastErr := some e } := by
            simp only [getImageDataLoop, if_neg hv, if_neg hskip, hnf]
          rw [hred]
          exact ih _
        | ok u =>
          cases ho : oracle endpoint with
          | success =>
            have hred : getImageDataLoop oracle name (endpoint :: rest) st
                = ([endpoint], FetchResult.found endpoint) := by
              simp only [getImageDataLoop, if_neg hv, if_neg hskip, hnf, ho]
            rw [hred]
            constructor
            · intro ep hep hsch
              have hh := List.mem_singleton.mp hep
              subst hh
              exact fun hin => hskip ⟨hsch, hin⟩
            · exact List.pairwise_singleton _ _
          | failure e =>
            cases hrec : e.recoverable with
            | false =>
              have hred : getImageDataLoop oracle name (endpoint :: rest) st
                  = ([endpoint], FetchResult.fatal e.msg) := by
                simp only [getImageDataLoop, if_neg hv, if_neg hskip, hnf, ho, hrec,
                  Bool.false_eq_true, if_false]
              rw [hred]
              constructor
              · intro ep hep hsch
                have hh := List.mem_singleton.mp hep
                subst hh
                exact fun hin => hskip ⟨hsch, hin⟩
              · exact List.pairwise_singleton _ _
            | true =>
              have hred : getImageDataLoop oracle name (endpoint :: rest) st
                  = (endpoint ::
                      (getImageDataLoop oracle name rest (fetchLoopNextState st endpoint e)).1,
                     (getImageDataLoop oracle name rest (fetchLoopNextState st endpoint e)).2) := by
                simp only [getImageDataLoop, if_neg hv, if_neg hskip, hnf, ho, hrec, if_true]
              rw [hred]
              have hconf := fetchLoopNextState_confirmed st endpoint e
              constructor
              · intro ep hep hsch
                rcases List.mem_cons.mp hep with hep | hep
                · subst hep
                  exact fun hin => hskip ⟨hsch, hin⟩
                · intro hin
                  apply (ih (fetchLoopNextState st endpoint e)).1 ep hep hsch
                  rw [hconf]
                  by_cases hsc : endpoint.scheme = "https"
                  · rw [if_pos hsc]
                    exact List.mem_cons_of_mem _ hin
                  · rw [if_neg hsc]
                    exact hin
              · rw [List.pairwise_cons]
                refine ⟨?_, (ih _).2⟩
                intro b hb hhttps _ hbs
                have hnotin := (ih (fetchLoopNextState st endpoint e)).1 b hb hbs
                rw [hconf, if_pos hhttps] at hnotin
                intro heq
                exact hnotin (heq ▸ List.mem_cons_self _ _)

/-- C7: within one fetch operation, a recoverable failure at an https
endpoint TLS-confirms its host, and no later non-https candidate for a
TLS-confirmed host is ever attempted: in the attempted-endpoint trace, no
recoverably-failing https attempt is ever followed by a non-https attempt at
the same host. Concretely, with candidates https then http for the same
host, only the https candidate is attempted. -/
theorem getImageData_no_tls_downgrade :
    (∀ (oracle : APIEndpoint → FetchOutcome) (name : String)
       (endpoints : List APIEndpoint),
       ((getImageData oracle name endpoints).1).Pairwise (fun a b =>
         a.scheme = "https" →
         (∃ e, oracle a = FetchOutcome.failure e ∧ e.recoverable = true) →
         b.scheme ≠ "https" → b.host ≠ a.host))
    ∧ (getImageData oracleW ("img") [⟨"https", "a.example", APIVersion.v2⟩,
        ⟨"http", "a.example", APIVersion.v2⟩]).1
      = [⟨"https", "a.example", APIVersion.v2⟩] :=
  ⟨fun oracle name endpoints =>
    (getImageDataLoop_no_downgrade oracle name endpoints ⟨none, false, []⟩).2, rfl⟩

/-- When the endpoint loop exhausts all candidates (over v1/v2 endpoints,
the only versions the endpoint discovery collaborator produces), the
returned message is the spec-side retention fold of the recoverable-failure
trail, with the synthesized no-endpoints error as fallback. -/
theorem getImageDataLoop_exhaust_retain (oracle : APIEndpoint → FetchOutcome) (name : String) :
    ∀ (eps : List APIEndpoint) (st : FetchLoopState),
      (∀ ep ∈ eps, ep.version ≠ APIVersion.other) →
      ∀ msg, (getImageDataLoop oracle name eps st).2 = FetchResult.exhausted msg →
      msg = (specRetainTieBreak st.discardNoSupportErrors st.lastErr
              (recoverableTrail oracle eps st.confirmedTLSRegistries)).getD
            ("no endpoints found for " ++ name) := by
  intro eps
  induction eps with
  | nil =>
    intro st _ msg hmsg
    simp only [getImageDataLoop] at hmsg
    injection hmsg with h
    exact h.symm
  | cons endpoint rest ih =>
    intro st hall msg hmsg
    have hallr : ∀ ep ∈ rest, ep.version ≠ APIVersion.other :=
      fun ep hep => hall ep (List.mem_cons_of_mem _ hep)
    by_cases hv : endpoint.version = APIVersion.v1
    · have hred : getImageDataLoop oracle name (endpoint :: rest) st
          = getImageDataLoop oracle name rest st := by
        simp [getImageDataLoop, hv]
      have ht : recoverableTrail oracle (endpoint :: rest) st.confirmedTLSRegistries
          = recoverableTrail oracle rest st.confirmedTLSRegistries := by
        simp [recoverableTrail, hv]
      rw [hred] at hmsg
      rw [ht]
      exact ih st hallr msg hmsg
    · by_cases hskip : endpoint.scheme ≠ "https" ∧ endpoint.host ∈ st.confirmedTLSRegistries
      · have hred : getImageDataLoop oracle name (endpoint :: rest) st
            = getImageDataLoop oracle name rest st := by
          simp only [getImageDataLoop, if_neg hv, if_pos hskip]
        have ht : recoverableTrail oracle (endpoint :: rest) st.confirmedTLSRegistries
            = recoverableTrail oracle rest st.confirmedTLSRegistries := by
          simp only [recoverableTrail, if_neg hv, if_pos hskip]
        rw [hred] at hmsg
        rw [ht]
        exact ih st hallr msg hmsg
      · have hv2 : endpoint.version = APIVersion.v2 := by
          cases hver : endpoint.version
          · exact absurd hver hv
          · rfl
          · exact absurd hver (hall endpoint (List.mem_cons_self _ _))
        have hnf : newManifestFetcherOk endpoint.version = Except.ok () := by
          rw [hv2]; rfl
        cases ho : oracle endpoint with
        | success =>
          have hred : (getImageDataLoop oracle name (endpoint :: rest) st).2
              = FetchResult.found endpoint := by
            simp only [getImageDataLoop, if_neg hv, if_neg hskip, hnf, ho]
          rw [hred] at hmsg
          cases hmsg
        | failure e =>
          cases hrec : e.recoverable with
          | false =>
            have hred : (getImageDataLoop oracle name (endpoint :: rest) st).2
                = FetchResult.fatal e.msg := by
              simp only [getImageDataLoop, if_neg hv, if_neg hskip, hnf, ho, hrec,
                Bool.false_eq_true, if_false]
            rw [hred] at hmsg
            cases hmsg
          | true =>
            have hred : (getImageDataLoop oracle name (endpoint :: rest) st).2
                = (getImageDataLoop oracle name rest (fetchLoopNextState st endpoint e)).2 := by
              simp only [getImageDataLoop, if_neg hv, if_neg hskip, hnf, ho, hrec, if_true]
            have ht : recoverableTrail oracle (endpoint :: rest) st.confirmedTLSRegistries
                = e :: recoverableTrail oracle rest
                    (if endpoint.scheme = "https"
                     then endpoint.host :: st.confirmedTLSRegistries
                     else st.confirmedTLSRegistries) := by
              simp only [recoverableTrail, if_neg hv, if_neg hskip, hnf, ho, hrec, if_true]
            rw [hred] at hmsg
            have hih := ih (fetchLoopNextState st endpoint e) hallr msg hmsg
            rw [ht, hih, ← fetchLoopNextState_confirmed st endpoint e,
              fetchLoopNextState_spec st endpoint e]

/-- The spec-side retention fold retains the most recent non-no-support
failure when one exists, otherwise the most recent failure, otherwise the
running last error. -/
theorem specRetainTieBreak_getLast :
    ∀ (es : List FetchFailure) (d : Bool) (l : Option String),
      specRetainTieBreak d l es
        = ((es.filter (fun e => !e.noSupport)).getLast?.map (fun e => e.msg)).or
            (if d then l else ((es.getLast?.map (fun e => e.msg)).or l)) := by
  have hsome : ∀ (z : FetchFailure) (zs : List FetchFailure),
      ∃ y, (z :: zs).getLast? = some y := by
    intro z zs
    cases hgl : (z :: zs).getLast? with
    | none => exact absurd (List.getLast?_eq_none_iff.mp hgl) (by simp)
    | some y => exact ⟨y, rfl⟩
  intro es
  induction es with
  | nil => intro d l; cases d <;> rfl
  | cons e t ih =>
    intro d l
    by_cases hns : (!e.noSupport) = true
    · have hL : specRetainTieBreak d l (e :: t) = specRetainTieBreak true (some e.msg) t := by
        simp [specRetainTieBreak, hns]
      have hfil : (e :: t).filter (fun x => !x.noSupport)
          = e :: t.filter (fun x => !x.noSupport) := by
        simp [List.filter_cons, hns]
      rw [hL, ih true (some e.msg), hfil]
      cases hft : t.filter (fun x => !x.noSupport) with
      | nil => simp
      | cons y ys =>
        obtain ⟨y', hy'⟩ := hsome y ys
        rw [List.getLast?_cons_cons, hy']
        simp
    · have hnsf : (!e.noSupport) = false := by
        cases hh : (!e.noSupport)
        · rfl
        · exact absurd hh hns
      have hfil : (e :: t).filter (fun x => !x.noSupport)
          = t.filter (fun x => !x.noSupport) := by
        simp [List.filter_cons, hnsf]
      cases d with
      | true =>
        have hL : specRetainTieBreak true l (e :: t) = specRetainTieBreak true l t := by
          simp [specRetainTieBreak, hnsf]
        rw [hL, ih true l, hfil]
        simp
      | false =>
        have hL : specRetainTieBreak false l (e :: t)
            = specRetainTieBreak false (some e.msg) t := by
          simp [specRetainTieBreak, hnsf]
        rw [hL, ih false (some e.msg), hfil]
        cases t with
        | nil => simp
        | cons z zs =>
          obtain ⟨y', hy'⟩ := hsome z zs
          rw [List.getLast?_cons_cons, hy']
          simp [hy']

/-- C8: when a fetch exhausts all endpoint candidates (the discovery
collaborator produces only v1/v2 endpoints), the returned error is the
retention fold of the recoverable failures encountered, falling back to the
synthesized no-endpoints error when none was recorded; and the retention
fold retains the most recent non-no-support failure if any was seen,
otherwise the most recent no-support failure. -/
theorem getImageData_last_error_retention :
    (∀ (oracle : APIEndpoint → FetchOutcome) (name : String)
       (endpoints : List APIEndpoint) (msg : String),
       (∀ ep ∈ endpoints, ep.version ≠ APIVersion.other) →
       (getImageData oracle name endpoints).2 = FetchResult.exhausted msg →
       msg = (specRetainTieBreak false none
               (recoverableTrail oracle endpoints [])).getD
             ("no endpoints found for " ++ name))
    ∧ (∀ es : List FetchFailure,
       specRetainTieBreak false none es
         = ((es.filter (fun e => !e.noSupport)).getLast?.map (fun e => e.msg)).or
             (es.getLast?.map (fun e => e.msg))) := by
  constructor
  · intro oracle name endpoints msg hall hex
    exact getImageDataLoop_exhaust_retain oracle name endpoints ⟨none, false, []⟩ hall msg hex
  · intro es
    have h := specRetainTieBreak_getLast es false none
    simpa using h

/-- Witness for the retention claim: two https candidates failing with a
no-support error then an ordinary recoverable error exhaust the loop and
return the ordinary error. -/
theorem getImageData_last_error_retention_witness :
    ("err2" : String) = (specRetainTieBreak false none
        (recoverableTrail oracleW [⟨"https", "a.example", APIVersion.v2⟩,
          ⟨"https", "b.example", APIVersion.v2⟩] [])).getD
        ("no endpoints found for " ++ "img") :=
  getImageData_last_error_retention.1 oracleW ("img")
    [⟨"https", "a.example", APIVersion.v2⟩, ⟨"https", "b.example", APIVersion.v2⟩]
    ("err2") (by decide) rfl
